import Mathlib

/-!
Shallow embedding of the interactive image-alignment component
(`src/components/QCAlignment.tsx`) of the watchqcpro repository, together
with the overlay/transform data model (`src/unnamed/part_003`, the types
module).

Modelling conventions:
* JavaScript numbers are modelled as exact rationals (`ℚ`); every numeric
  literal of the source (0.1, 10, 0.005, 100, …) is exact in `ℚ`.
* `Math.hypot` returns the Euclidean distance, an irrational real in
  general.  The embedding takes the distance function as an explicit
  parameter `hypot : ℚ → ℚ → ℚ`; every property proved below holds for an
  arbitrary distance function, so nothing depends on its numeric values.
* React `useState`/`useRef` cells become fields of a single record
  `ComponentState`; each event handler becomes a state-to-state function
  carrying the event's payload.
* `parseFloat(x.toFixed(2))` becomes rounding to the nearest multiple of
  1/100 (`round2`).
-/

namespace WatchQC

/-- `ImageState` from the types module: pan/zoom/rotation of the image. -/
structure ImageState where
  rotation : ℚ
  scale : ℚ
  x : ℚ
  y : ℚ
deriving DecidableEq

/-- The `type` field of `OverlayConfig` in the types module:
`'indices' | 'grid' | 'crosshair'`. -/
inductive OverlayType
  | indices
  | grid
  | crosshair
deriving DecidableEq

/-- `OverlayConfig` from the types module. -/
structure OverlayConfig where
  type : OverlayType
  color : String
  rotation : ℚ
  scale : ℚ
  offsetX : ℚ
  offsetY : ℚ
deriving DecidableEq

/-- The state cells of the `QCAlignment` component: the two `useState`
records `imgState` and `overlay`, the gesture session cells `isDragging`,
`dragStart`, the `isSaving` flag, the touch refs `lastTouchDistance` and
`lastTouchPos`, plus the `imageSrc` prop and whether `containerRef.current`
is non-null. -/
structure ComponentState where
  imgState : ImageState
  overlay : OverlayConfig
  isDragging : Bool
  dragStart : ℚ × ℚ
  isSaving : Bool
  lastTouchDistance : Option ℚ
  lastTouchPos : Option (ℚ × ℚ)
  imageSrc : Option String
  containerRef : Bool
deriving DecidableEq

/-- The component's initial state (lines 16-45): identity image transform,
indices overlay in cyan, no gesture in progress, not saving. -/
def initState (src : Option String) : ComponentState :=
  { imgState := { rotation := 0, scale := 1, x := 0, y := 0 }
    overlay := { type := OverlayType.indices, color := "#00CFEF", rotation := 0,
                 scale := 100, offsetX := 0, offsetY := 0 }
    isDragging := false
    dragStart := (0, 0)
    isSaving := false
    lastTouchDistance := none
    lastTouchPos := none
    imageSrc := src
    containerRef := true }

/-- JavaScript `Math.sign`. -/
def jsSign (q : ℚ) : ℚ :=
  if 0 < q then 1 else if q < 0 then -1 else 0

/-- `parseFloat(v.toFixed(2))`: round to the nearest multiple of 1/100.
(The claims never hit a tie, so the tie-breaking convention is
immaterial.) -/
def round2 (q : ℚ) : ℚ :=
  (round (100 * q) : ℤ) / 100

/-- `handleReset` (lines 55-58): identity image transform; overlay geometry
reset to {0, 100, 0, 0} with `type` and `color` preserved by the spread. -/
def handleReset (s : ComponentState) : ComponentState :=
  { s with
    imgState := { rotation := 0, scale := 1, x := 0, y := 0 }
    overlay := { s.overlay with rotation := 0, scale := 100, offsetX := 0, offsetY := 0 } }

/-- `handleMouseDown` (lines 61-65): early return when no image; otherwise
start dragging and record `dragStart = pointer − currentTranslate`. -/
def handleMouseDown (pos : ℚ × ℚ) (s : ComponentState) : ComponentState :=
  if s.imageSrc = none then s
  else
    { s with
      isDragging := true
      dragStart := (pos.1 - s.imgState.x, pos.2 - s.imgState.y) }

/-- `handleMouseMove` (lines 67-75): no-op unless dragging; otherwise set
`translate = pointer − dragStart`. -/
def handleMouseMove (pos : ℚ × ℚ) (s : ComponentState) : ComponentState :=
  if s.isDragging then
    { s with
      imgState := { s.imgState with
        x := pos.1 - s.dragStart.1
        y := pos.2 - s.dragStart.2 } }
  else s

/-- `handleMouseUp` (line 77), also wired to `onMouseLeave` (line 298):
clears only the dragging flag. -/
def handleMouseUp (s : ComponentState) : ComponentState :=
  { s with isDragging := false }

/-- `handleWheel` (lines 79-86): early return when no image; otherwise
`delta = −sign(deltaY)·0.1` and the new scale is clamped with
`Math.max(0.1, Math.min(10, scale + delta))`. -/
def handleWheel (deltaY : ℚ) (s : ComponentState) : ComponentState :=
  if s.imageSrc = none then s
  else
    { s with
      imgState := { s.imgState with
        scale := max 0.1 (min 10 (s.imgState.scale + -(jsSign deltaY) * 0.1)) } }

/-- `handleTouchStart` (lines 89-103): early return when no image; one
touch starts a drag (recording `lastTouchPos` and `dragStart`); two touches
record the pinch reference distance `hypot` of the coordinate deltas. -/
def handleTouchStart (hypot : ℚ → ℚ → ℚ) (touches : List (ℚ × ℚ))
    (s : ComponentState) : ComponentState :=
  if s.imageSrc = none then s
  else
    match touches with
    | [t] =>
      { s with
        lastTouchPos := some (t.1, t.2)
        dragStart := (t.1 - s.imgState.x, t.2 - s.imgState.y)
        isDragging := true }
    | [t1, t2] =>
      { s with lastTouchDistance := some (hypot (t2.1 - t1.1) (t2.2 - t1.2)) }
    | _ => s

/-- `handleTouchMove` (lines 105-136): early return when no image; one
touch while dragging pans with the `dragStart` anchor; two touches compute
the current distance, and, when a reference distance exists, add
`delta · 0.005` to the scale clamped to [0.1, 10]; the reference distance
is updated to the current distance every two-touch frame. -/
def handleTouchMove (hypot : ℚ → ℚ → ℚ) (touches : List (ℚ × ℚ))
    (s : ComponentState) : ComponentState :=
  if s.imageSrc = none then s
  else
    match touches with
    | [t] =>
      if s.isDragging then
        { s with
          imgState := { s.imgState with
            x := t.1 - s.dragStart.1
            y := t.2 - s.dragStart.2 } }
      else s
    | [t1, t2] =>
      let currentDistance := hypot (t2.1 - t1.1) (t2.2 - t1.2)
      let s1 :=
        match s.lastTouchDistance with
        | some lastDist =>
          { s with
            imgState := { s.imgState with
              scale := max 0.1 (min 10 (s.imgState.scale + (currentDistance - lastDist) * 0.005)) } }
        | none => s
      { s1 with lastTouchDistance := some currentDistance }
    | _ => s

/-- `handleTouchEnd` (lines 138-142), also wired to `onTouchCancel`
(line 303): clears the dragging flag and both touch refs. -/
def handleTouchEnd (s : ComponentState) : ComponentState :=
  { s with
    isDragging := false
    lastTouchDistance := none
    lastTouchPos := none }

/-- `adjustRotation` (lines 145-147): add the delta and store
`parseFloat((rotation + delta).toFixed(2))`. -/
def adjustRotation (delta : ℚ) (s : ComponentState) : ComponentState :=
  { s with
    imgState := { s.imgState with rotation := round2 (s.imgState.rotation + delta) } }

/-- The rotation slider's `onChange` (line 441): stores
`parseFloat(e.target.value)` with no explicit rounding. -/
def sliderRotation (v : ℚ) (s : ComponentState) : ComponentState :=
  { s with imgState := { s.imgState with rotation := v } }

/-- The values the rotation slider can emit (lines 435-443):
`min="-45" max="45" step="0.1"`, i.e. multiples of 1/10 in [−45, 45]. -/
def isSliderValue (v : ℚ) : Prop :=
  (∃ k : ℤ, v = k / 10) ∧ -45 ≤ v ∧ v ≤ 45

/-- The Indices tool button (line 394): `setOverlay({ ...overlay, type: 'indices' })`. -/
def selectIndices (s : ComponentState) : ComponentState :=
  { s with overlay := { s.overlay with type := OverlayType.indices } }

/-- The Grid tool button (line 405): `setOverlay({ ...overlay, type: 'grid' })`. -/
def selectGrid (s : ComponentState) : ComponentState :=
  { s with overlay := { s.overlay with type := OverlayType.grid } }

/-- A ruler-color swatch (line 457): `setOverlay({ ...overlay, color })`. -/
def selectColor (c : String) (s : ComponentState) : ComponentState :=
  { s with overlay := { s.overlay with color := c } }

/-- `handleFileChange` (lines 47-53) together with the host's `onUpload`:
a new image source is bound and the image transform is reset to identity;
the overlay persists. -/
def uploadImage (src : String) (s : ComponentState) : ComponentState :=
  { s with
    imageSrc := some src
    imgState := { rotation := 0, scale := 1, x := 0, y := 0 } }

/-- Outcome of the awaited `html2canvas` capture inside `handleSaveImage`. -/
inductive CaptureResult
  | success
  | failure
deriving DecidableEq

/-- The `disabled={isSaving || !imageSrc}` attribute of both Save buttons
(lines 380 and 480): a click on a disabled button does not invoke
`handleSaveImage`. -/
def saveButtonDisabled (s : ComponentState) : Bool :=
  s.isSaving || s.imageSrc.isNone

/-- The synchronous prefix of `handleSaveImage` (lines 149-151): early
return when the container ref or the image is missing, otherwise
`setIsSaving(true)`.  The boolean records whether a capture was started. -/
def saveStart (s : ComponentState) : ComponentState × Bool :=
  if s.containerRef = false ∨ s.imageSrc = none then (s, false)
  else ({ s with isSaving := true }, true)

/-- The remainder of `handleSaveImage` (lines 153-181): on capture success
the canvas is watermarked and a download link `GeekTime-QC-<timestamp>.png`
is clicked; on capture failure the error is alerted and no link is created;
the `finally` block sets `isSaving` to false on both paths.  Neither path
touches `imgState` or `overlay`. -/
def saveFinish (s : ComponentState) (cap : CaptureResult) (now : ℕ) :
    ComponentState × Option String :=
  match cap with
  | CaptureResult.success =>
    ({ s with isSaving := false }, some ("GeekTime-QC-" ++ toString now ++ ".png"))
  | CaptureResult.failure =>
    ({ s with isSaving := false }, none)

/-- One click of a Save button: the disabled gate, then `handleSaveImage`'s
synchronous prefix.  The boolean records whether a capture was started. -/
def clickSave (s : ComponentState) : ComponentState × Bool :=
  if saveButtonDisabled s then (s, false) else saveStart s

/-- A complete export run: one Save click followed, when a capture was
started, by the capture's completion with the given result. -/
def runSave (s : ComponentState) (cap : CaptureResult) (now : ℕ) :
    ComponentState × Option String :=
  let c := clickSave s
  if c.2 then saveFinish c.1 cap now else (c.1, none)

/-- The events the component reacts to: the wired DOM handlers
(lines 295-303), the sidebar controls, upload, and a complete export run.
`mouseUp` also stands for `onMouseLeave` and `touchEnd` for
`onTouchCancel`, which are wired to the same handlers. -/
inductive Event
  | mouseDown (pos : ℚ × ℚ)
  | mouseMove (pos : ℚ × ℚ)
  | mouseUp
  | wheel (deltaY : ℚ)
  | touchStart (touches : List (ℚ × ℚ))
  | touchMove (touches : List (ℚ × ℚ))
  | touchEnd
  | resetClick
  | adjustRotClick (delta : ℚ)
  | sliderChange (v : ℚ)
  | selectIndicesClick
  | selectGridClick
  | selectColorClick (c : String)
  | upload (src : String)
  | saveRun (cap : CaptureResult) (now : ℕ)

/-- Dispatch one event to its handler. -/
def applyEvent (hypot : ℚ → ℚ → ℚ) (e : Event) (s : ComponentState) : ComponentState :=
  match e with
  | Event.mouseDown pos => handleMouseDown pos s
  | Event.mouseMove pos => handleMouseMove pos s
  | Event.mouseUp => handleMouseUp s
  | Event.wheel d => handleWheel d s
  | Event.touchStart ts => handleTouchStart hypot ts s
  | Event.touchMove ts => handleTouchMove hypot ts s
  | Event.touchEnd => handleTouchEnd s
  | Event.resetClick => handleReset s
  | Event.adjustRotClick d => adjustRotation d s
  | Event.sliderChange v => sliderRotation v s
  | Event.selectIndicesClick => selectIndices s
  | Event.selectGridClick => selectGrid s
  | Event.selectColorClick c => selectColor c s
  | Event.upload src => uploadImage src s
  | Event.saveRun cap now => (runSave s cap now).1

/-- Apply a sequence of events in order. -/
def applyEvents (hypot : ℚ → ℚ → ℚ) (es : List Event) (s : ComponentState) :
    ComponentState :=
  es.foldl (fun st e => applyEvent hypot e st) s

/-- The states the component can be in: an initial state followed by any
sequence of events. -/
inductive Reachable (hypot : ℚ → ℚ → ℚ) : ComponentState → Prop
  | init (src : Option String) : Reachable hypot (initState src)
  | step (e : Event) {s : ComponentState} :
      Reachable hypot s → Reachable hypot (applyEvent hypot e s)

/-- One visual element of the rendered overlay guide. -/
inductive OverlayElement
  | line (color : String) (angleDeg : ℚ)
  | circle (color : String) (relSize : ℚ)
  | gridPattern (color : String) (cellPx : ℚ)
deriving DecidableEq

/-- `renderOverlay` (lines 218-268).  For `'indices'`: the central
horizontal and vertical hairlines, six further full-width hairlines rotated
at `i·30°` for `i = 0..5` (twelve radiating spokes in all), the small
centre circle (`w-4 h-4`) and the inner guide circle at 2/3 size.  For
`'grid'`: one square crosshatch with 50px cells.  Any other type falls
through to `return null`. -/
def renderOverlay (o : OverlayConfig) : Option (List OverlayElement) :=
  match o.type with
  | OverlayType.indices =>
    some ([OverlayElement.line o.color 0, OverlayElement.line o.color 90]
      ++ (List.range 6).map (fun i => OverlayElement.line o.color (30 * (i : ℚ)))
      ++ [OverlayElement.circle o.color 4, OverlayElement.circle o.color (2 / 3)])
  | OverlayType.grid =>
    some [OverlayElement.gridPattern o.color 50]
  | OverlayType.crosshair => none

/-- A sample distance function used to instantiate the abstract
`Math.hypot` parameter in concrete evaluations; no claim depends on the
distance values. -/
def sampleDist (dx dy : ℚ) : ℚ :=
  dx * dx + dy * dy

/-! ## Preservation lemmas -/

theorem handleMouseMove_preserves (pos : ℚ × ℚ) (s : ComponentState) :
    (handleMouseMove pos s).isDragging = s.isDragging ∧
    (handleMouseMove pos s).dragStart = s.dragStart ∧
    (handleMouseMove pos s).imageSrc = s.imageSrc := by
  unfold handleMouseMove
  split <;> simp

theorem foldl_mouseMove_preserves (mids : List (ℚ × ℚ)) (s : ComponentState) :
    ((mids.foldl (fun st q => handleMouseMove q st) s).isDragging = s.isDragging) ∧
    ((mids.foldl (fun st q => handleMouseMove q st) s).dragStart = s.dragStart) ∧
    ((mids.foldl (fun st q => handleMouseMove q st) s).imageSrc = s.imageSrc) := by
  induction mids generalizing s with
  | nil => exact ⟨rfl, rfl, rfl⟩
  | cons q qs ih =>
    simp only [List.foldl_cons]
    obtain ⟨h1, h2, h3⟩ := ih (handleMouseMove q s)
    obtain ⟨g1, g2, g3⟩ := handleMouseMove_preserves q s
    exact ⟨h1.trans g1, h2.trans g2, h3.trans g3⟩

theorem handleTouchMove_preserves (hypot : ℚ → ℚ → ℚ) (ts : List (ℚ × ℚ))
    (s : ComponentState) :
    (handleTouchMove hypot ts s).isDragging = s.isDragging ∧
    (handleTouchMove hypot ts s).dragStart = s.dragStart ∧
    (handleTouchMove hypot ts s).imageSrc = s.imageSrc := by
  unfold handleTouchMove
  split
  · simp
  · rcases ts with _ | ⟨t, _ | ⟨t2, _ | ⟨t3, rest⟩⟩⟩
    · simp
    · split_ifs <;> simp
    · cases hld : s.lastTouchDistance <;> simp [hld]
    · simp

theorem foldl_touchMove1_preserves (hypot : ℚ → ℚ → ℚ) (mids : List (ℚ × ℚ))
    (s : ComponentState) :
    ((mids.foldl (fun st u => handleTouchMove hypot [u] st) s).isDragging = s.isDragging) ∧
    ((mids.foldl (fun st u => handleTouchMove hypot [u] st) s).dragStart = s.dragStart) ∧
    ((mids.foldl (fun st u => handleTouchMove hypot [u] st) s).imageSrc = s.imageSrc) := by
  induction mids generalizing s with
  | nil => exact ⟨rfl, rfl, rfl⟩
  | cons q qs ih =>
    simp only [List.foldl_cons]
    obtain ⟨h1, h2, h3⟩ := ih (handleTouchMove hypot [q] s)
    obtain ⟨g1, g2, g3⟩ := handleTouchMove_preserves hypot [q] s
    exact ⟨h1.trans g1, h2.trans g2, h3.trans g3⟩

theorem foldl_touchMove2_preserves (hypot : ℚ → ℚ → ℚ)
    (frames : List ((ℚ × ℚ) × (ℚ × ℚ))) (s : ComponentState) :
    ((frames.foldl (fun st uv => handleTouchMove hypot [uv.1, uv.2] st) s).isDragging
        = s.isDragging) ∧
    ((frames.foldl (fun st uv => handleTouchMove hypot [uv.1, uv.2] st) s).dragStart
        = s.dragStart) ∧
    ((frames.foldl (fun st uv => handleTouchMove hypot [uv.1, uv.2] st) s).imageSrc
        = s.imageSrc) := by
  induction frames generalizing s with
  | nil => exact ⟨rfl, rfl, rfl⟩
  | cons q qs ih =>
    simp only [List.foldl_cons]
    obtain ⟨h1, h2, h3⟩ := ih (handleTouchMove hypot [q.1, q.2] s)
    obtain ⟨g1, g2, g3⟩ := handleTouchMove_preserves hypot [q.1, q.2] s
    exact ⟨h1.trans g1, h2.trans g2, h3.trans g3⟩

theorem handleTouchStart_imageSrc (hypot : ℚ → ℚ → ℚ) (ts : List (ℚ × ℚ))
    (s : ComponentState) :
    (handleTouchStart hypot ts s).imageSrc = s.imageSrc := by
  unfold handleTouchStart
  split
  · rfl
  · rcases ts with _ | ⟨t, _ | ⟨t2, _ | ⟨t3, rest⟩⟩⟩ <;> rfl

theorem handleMouseMove_translate (pos : ℚ × ℚ) (s : ComponentState)
    (hd : s.isDragging = true) :
    (handleMouseMove pos s).imgState.x = pos.1 - s.dragStart.1 ∧
    (handleMouseMove pos s).imgState.y = pos.2 - s.dragStart.2 := by
  unfold handleMouseMove
  simp [hd]

theorem handleTouchMove_single_translate (hypot : ℚ → ℚ → ℚ) (t : ℚ × ℚ)
    (s : ComponentState) (hsrc : s.imageSrc ≠ none) (hd : s.isDragging = true) :
    (handleTouchMove hypot [t] s).imgState.x = t.1 - s.dragStart.1 ∧
    (handleTouchMove hypot [t] s).imgState.y = t.2 - s.dragStart.2 := by
  unfold handleTouchMove
  simp [hsrc, hd]

/-- A single-touch move while not dragging changes nothing (both the
no-image early return and the `isDragging` guard yield the input state). -/
theorem handleTouchMove_single_no_drag (hypot : ℚ → ℚ → ℚ) (t : ℚ × ℚ)
    (s : ComponentState) (h : s.isDragging = false) :
    handleTouchMove hypot [t] s = s := by
  unfold handleTouchMove
  split
  · rfl
  · simp [h]

theorem foldl_touchMove1_no_drag (hypot : ℚ → ℚ → ℚ) (mids : List (ℚ × ℚ))
    (s : ComponentState) (h : s.isDragging = false) :
    mids.foldl (fun st u => handleTouchMove hypot [u] st) s = s := by
  induction mids with
  | nil => rfl
  | cons q qs ih =>
    simp only [List.foldl_cons, handleTouchMove_single_no_drag hypot q s h, ih]

/-! ## Claims -/

/-- C9: Reset idempotence: calling `handleReset` twice equals calling it
once; the result has the identity image transform {0, 1, 0, 0} and the
identity overlay geometry {0, 100, 0, 0}, while the overlay kind and color
are preserved. -/
theorem reset_idempotent (s : ComponentState) :
    handleReset (handleReset s) = handleReset s ∧
    (handleReset s).imgState = { rotation := 0, scale := 1, x := 0, y := 0 } ∧
    (handleReset s).overlay.rotation = 0 ∧
    (handleReset s).overlay.scale = 100 ∧
    (handleReset s).overlay.offsetX = 0 ∧
    (handleReset s).overlay.offsetY = 0 ∧
    (handleReset s).overlay.type = s.overlay.type ∧
    (handleReset s).overlay.color = s.overlay.color := by
  simp [handleReset]

/-- A state in which a pinch reference distance is still recorded when a
mouse-up (or mouse-leave) event arrives. -/
def mouseUpPinchState : ComponentState :=
  { initState (some ("img")) with isDragging := true, lastTouchDistance := some 5 }

/-- C8 counterexample: `handleMouseUp` (also wired to `onMouseLeave`) does
not clear the pinch-reference distance, so a gesture-end via mouse-up from
a state holding a pinch reference does not reach the null GestureSession
the claim requires. -/
theorem mouseUp_not_clearing :
    (handleMouseUp mouseUpPinchState).lastTouchDistance ≠ none := by
  simp [handleMouseUp, mouseUpPinchState]

/-- C8 (amended): touch end and touch cancel unconditionally clear the
dragging flag, the pinch-reference distance and the last touch point from
every prior state; mouse up and mouse leave clear only the dragging flag,
leaving the pinch-reference distance and last touch point unchanged. -/
theorem gesture_end_clearing (s : ComponentState) :
    (handleTouchEnd s).isDragging = false ∧
    (handleTouchEnd s).lastTouchDistance = none ∧
    (handleTouchEnd s).lastTouchPos = none ∧
    (handleMouseUp s).isDragging = false ∧
    (handleMouseUp s).lastTouchDistance = s.lastTouchDistance ∧
    (handleMouseUp s).lastTouchPos = s.lastTouchPos := by
  simp [handleTouchEnd, handleMouseUp]

/-- C2: Pan anchoring: from translate (0,0), a press at screen point `P`
(mouse down or single-touch start) records the anchor
`pointerPosition − currentTranslate = P`; after any list of intermediate
move events while pressed, a final move at `P + d` yields translate exactly
`d`, for both the mouse and the touch pipeline. -/
theorem pan_anchoring (hypot : ℚ → ℚ → ℚ) (s : ComponentState) (P d : ℚ × ℚ)
    (mids tmids : List (ℚ × ℚ))
    (himg : s.imageSrc ≠ none) (hx : s.imgState.x = 0) (hy : s.imgState.y = 0) :
    (handleMouseDown P s).dragStart = P ∧
    (handleMouseMove (P.1 + d.1, P.2 + d.2)
      (mids.foldl (fun st q => handleMouseMove q st) (handleMouseDown P s))).imgState.x
      = d.1 ∧
    (handleMouseMove (P.1 + d.1, P.2 + d.2)
      (mids.foldl (fun st q => handleMouseMove q st) (handleMouseDown P s))).imgState.y
      = d.2 ∧
    (handleTouchStart hypot [P] s).dragStart = P ∧
    (handleTouchMove hypot [(P.1 + d.1, P.2 + d.2)]
      (tmids.foldl (fun st u => handleTouchMove hypot [u] st)
        (handleTouchStart hypot [P] s))).imgState.x = d.1 ∧
    (handleTouchMove hypot [(P.1 + d.1, P.2 + d.2)]
      (tmids.foldl (fun st u => handleTouchMove hypot [u] st)
        (handleTouchStart hypot [P] s))).imgState.y = d.2 := by
  have hdown : handleMouseDown P s
      = { s with isDragging := true, dragStart := (P.1 - s.imgState.x, P.2 - s.imgState.y) } := by
    unfold handleMouseDown
    simp [himg]
  have hanchor : (handleMouseDown P s).dragStart = P := by
    rw [hdown]
    simp [hx, hy]
  obtain ⟨hm1, hm2, _⟩ :=
    foldl_mouseMove_preserves mids (handleMouseDown P s)
  have hmdrag : (mids.foldl (fun st q => handleMouseMove q st) (handleMouseDown P s)).isDragging
      = true := by
    rw [hm1, hdown]
  have hmanch : (mids.foldl (fun st q => handleMouseMove q st) (handleMouseDown P s)).dragStart
      = P := hm2.trans hanchor
  have htstart : handleTouchStart hypot [P] s
      = { s with lastTouchPos := some (P.1, P.2),
                 dragStart := (P.1 - s.imgState.x, P.2 - s.imgState.y),
                 isDragging := true } := by
    unfold handleTouchStart
    simp [himg]
  have htanchor : (handleTouchStart hypot [P] s).dragStart = P := by
    rw [htstart]
    simp [hx, hy]
  obtain ⟨ht1, ht2, ht3⟩ :=
    foldl_touchMove1_preserves hypot tmids (handleTouchStart hypot [P] s)
  have htdrag : (tmids.foldl (fun st u => handleTouchMove hypot [u] st)
      (handleTouchStart hypot [P] s)).isDragging = true := by
    rw [ht1, htstart]
  have htanch : (tmids.foldl (fun st u => handleTouchMove hypot [u] st)
      (handleTouchStart hypot [P] s)).dragStart = P := ht2.trans htanchor
  have htsrc : (tmids.foldl (fun st u => handleTouchMove hypot [u] st)
      (handleTouchStart hypot [P] s)).imageSrc ≠ none := by
    rw [ht3, handleTouchStart_imageSrc]
    exact himg
  refine ⟨hanchor, ?_, ?_, htanchor, ?_, ?_⟩
  · rw [(handleMouseMove_translate _ _ hmdrag).1, hmanch]
    ring
  · rw [(handleMouseMove_translate _ _ hmdrag).2, hmanch]
    ring
  · rw [(handleTouchMove_single_translate hypot _ _ htsrc htdrag).1, htanch]
    ring
  · rw [(handleTouchMove_single_translate hypot _ _ htsrc htdrag).2, htanch]
    ring

/-- C2 witness: a concrete pan from (0,0): press at (100, 50), two
intermediate moves, final move at (100 + 7, 50 − 3) yields translate
(7, −3) on both pipelines. -/
theorem pan_anchoring_check :
    ((initState (some ("img"))).imageSrc ≠ none) ∧
    (handleMouseDown (100, 50) (initState (some ("img")))).dragStart = (100, 50) ∧
    (handleMouseMove ((100 : ℚ) + 7, (50 : ℚ) + -3)
      ([((101 : ℚ), (50 : ℚ)), (90, 60)].foldl (fun st q => handleMouseMove q st)
        (handleMouseDown (100, 50) (initState (some ("img")))))).imgState.x = 7 ∧
    (handleTouchMove sampleDist [((100 : ℚ) + 7, (50 : ℚ) + -3)]
      ([((101 : ℚ), (50 : ℚ)), (90, 60)].foldl
        (fun st u => handleTouchMove sampleDist [u] st)
        (handleTouchStart sampleDist [(100, 50)] (initState (some ("img")))))).imgState.y
      = -3 := by
  have h := pan_anchoring sampleDist (initState (some ("img"))) (100, 50) (7, -3)
    [((101 : ℚ), (50 : ℚ)), (90, 60)] [((101 : ℚ), (50 : ℚ)), (90, 60)]
    (by simp [initState]) rfl rfl
  exact ⟨by simp [initState], h.1, h.2.1, h.2.2.2.2.2⟩

/-- C3: Pinch re-anchoring: in every trace that pans with one touch, gains
a second touch (the touch-start with two touches), pinches, and then drops
back to one touch (touch end fires), the state after the drop is left
entirely unchanged by subsequent single-touch move frames — the stale
pre-pinch anchor is never applied and translate shows no instantaneous
jump — and a fresh single-touch start re-anchors from the transform state
current at that frame, `dragStart = touchPoint − currentTranslate`. -/
theorem pinch_reanchoring (hypot : ℚ → ℚ → ℚ) (s0 : ComponentState)
    (p : ℚ × ℚ) (pans : List (ℚ × ℚ)) (q1 q2 : ℚ × ℚ)
    (pinches : List ((ℚ × ℚ) × (ℚ × ℚ))) (post : List (ℚ × ℚ)) (r : ℚ × ℚ)
    (himg : s0.imageSrc ≠ none) :
    (post.foldl (fun st u => handleTouchMove hypot [u] st)
        (handleTouchEnd
          (pinches.foldl (fun st uv => handleTouchMove hypot [uv.1, uv.2] st)
            (handleTouchStart hypot [q1, q2]
              (pans.foldl (fun st u => handleTouchMove hypot [u] st)
                (handleTouchStart hypot [p] s0)))))
      = handleTouchEnd
          (pinches.foldl (fun st uv => handleTouchMove hypot [uv.1, uv.2] st)
            (handleTouchStart hypot [q1, q2]
              (pans.foldl (fun st u => handleTouchMove hypot [u] st)
                (handleTouchStart hypot [p] s0))))) ∧
    (handleTouchEnd
        (pinches.foldl (fun st uv => handleTouchMove hypot [uv.1, uv.2] st)
          (handleTouchStart hypot [q1, q2]
            (pans.foldl (fun st u => handleTouchMove hypot [u] st)
              (handleTouchStart hypot [p] s0))))).isDragging = false ∧
    (handleTouchStart hypot [r]
        (handleTouchEnd
          (pinches.foldl (fun st uv => handleTouchMove hypot [uv.1, uv.2] st)
            (handleTouchStart hypot [q1, q2]
              (pans.foldl (fun st u => handleTouchMove hypot [u] st)
                (handleTouchStart hypot [p] s0)))))).dragStart
      = (r.1 - (handleTouchEnd
          (pinches.foldl (fun st uv => handleTouchMove hypot [uv.1, uv.2] st)
            (handleTouchStart hypot [q1, q2]
              (pans.foldl (fun st u => handleTouchMove hypot [u] st)
                (handleTouchStart hypot [p] s0))))).imgState.x,
         r.2 - (handleTouchEnd
          (pinches.foldl (fun st uv => handleTouchMove hypot [uv.1, uv.2] st)
            (handleTouchStart hypot [q1, q2]
              (pans.foldl (fun st u => handleTouchMove hypot [u] st)
                (handleTouchStart hypot [p] s0))))).imgState.y) := by
  set s4 := pinches.foldl (fun st uv => handleTouchMove hypot [uv.1, uv.2] st)
    (handleTouchStart hypot [q1, q2]
      (pans.foldl (fun st u => handleTouchMove hypot [u] st)
        (handleTouchStart hypot [p] s0))) with hs4
  have hdrag : (handleTouchEnd s4).isDragging = false := rfl
  have hsrc : (handleTouchEnd s4).imageSrc ≠ none := by
    show s4.imageSrc ≠ none
    rw [hs4]
    rw [(foldl_touchMove2_preserves hypot pinches _).2.2]
    rw [handleTouchStart_imageSrc]
    rw [(foldl_touchMove1_preserves hypot pans _).2.2]
    rw [handleTouchStart_imageSrc]
    exact himg
  refine ⟨foldl_touchMove1_no_drag hypot post _ hdrag, hdrag, ?_⟩
  unfold handleTouchStart
  simp [hsrc]

/-- C3 witness: the spec's own scenario — single touch at (100,100) panned
for 3 frames, a second touch appears, 2 pinch frames, one touch lifted;
two subsequent single-touch frames leave the state untouched and a fresh
touch at (7,8) re-anchors from the current translate. -/
theorem pinch_reanchoring_check :
    ((initState (some ("img"))).imageSrc ≠ none) ∧
    ([((120 : ℚ), (100 : ℚ)), (130, 100)].foldl
        (fun st u => handleTouchMove sampleDist [u] st)
        (handleTouchEnd
          ([(((0 : ℚ), (0 : ℚ)), ((30 : ℚ), (40 : ℚ))), ((0, 0), (60, 80))].foldl
            (fun st uv => handleTouchMove sampleDist [uv.1, uv.2] st)
            (handleTouchStart sampleDist [((0 : ℚ), (0 : ℚ)), ((30 : ℚ), (40 : ℚ))]
              ([((101 : ℚ), (100 : ℚ)), (102, 100), (103, 100)].foldl
                (fun st u => handleTouchMove sampleDist [u] st)
                (handleTouchStart sampleDist [((100 : ℚ), (100 : ℚ))]
                  (initState (some ("img"))))))))
      = handleTouchEnd
          ([(((0 : ℚ), (0 : ℚ)), ((30 : ℚ), (40 : ℚ))), ((0, 0), (60, 80))].foldl
            (fun st uv => handleTouchMove sampleDist [uv.1, uv.2] st)
            (handleTouchStart sampleDist [((0 : ℚ), (0 : ℚ)), ((30 : ℚ), (40 : ℚ))]
              ([((101 : ℚ), (100 : ℚ)), (102, 100), (103, 100)].foldl
                (fun st u => handleTouchMove sampleDist [u] st)
                (handleTouchStart sampleDist [((100 : ℚ), (100 : ℚ))]
                  (initState (some ("img")))))))) := by
  have h := pinch_reanchoring sampleDist (initState (some ("img")))
    (100, 100) [((101 : ℚ), (100 : ℚ)), (102, 100), (103, 100)]
    ((0 : ℚ), (0 : ℚ)) ((30 : ℚ), (40 : ℚ))
    [(((0 : ℚ), (0 : ℚ)), ((30 : ℚ), (40 : ℚ))), ((0, 0), (60, 80))]
    [((120 : ℚ), (100 : ℚ)), (130, 100)] (7, 8)
    (by simp [initState])
  exact ⟨by simp [initState], h.1⟩

/-- The zoom operations named by the clamp invariant: wheel events and
touch-move frames (which perform the two-touch pinch zoom). -/
def isZoomEvent : Event → Prop
  | Event.wheel _ => True
  | Event.touchMove _ => True
  | _ => False

theorem handleWheel_scale_bounds (d : ℚ) (s : ComponentState)
    (h1 : 0.1 ≤ s.imgState.scale) (h2 : s.imgState.scale ≤ 10) :
    0.1 ≤ (handleWheel d s).imgState.scale ∧ (handleWheel d s).imgState.scale ≤ 10 := by
  unfold handleWheel
  split
  · exact ⟨h1, h2⟩
  · exact ⟨le_max_left _ _, max_le (by norm_num) (min_le_left _ _)⟩

theorem handleTouchMove_scale_bounds (hypot : ℚ → ℚ → ℚ) (ts : List (ℚ × ℚ))
    (s : ComponentState)
    (h1 : 0.1 ≤ s.imgState.scale) (h2 : s.imgState.scale ≤ 10) :
    0.1 ≤ (handleTouchMove hypot ts s).imgState.scale ∧
      (handleTouchMove hypot ts s).imgState.scale ≤ 10 := by
  unfold handleTouchMove
  split
  · exact ⟨h1, h2⟩
  · rcases ts with _ | ⟨t, _ | ⟨t2, _ | ⟨t3, rest⟩⟩⟩
    · exact ⟨h1, h2⟩
    · split_ifs <;> exact ⟨h1, h2⟩
    · cases hld : s.lastTouchDistance with
      | none =>
        simp only [hld]
        exact ⟨h1, h2⟩
      | some dv =>
        simp only [hld]
        exact ⟨le_max_left _ _, max_le (by norm_num) (min_le_left _ _)⟩
    · exact ⟨h1, h2⟩

theorem zoom_step_scale_bounds (hypot : ℚ → ℚ → ℚ) (e : Event) (s : ComponentState)
    (hz : isZoomEvent e)
    (h1 : 0.1 ≤ s.imgState.scale) (h2 : s.imgState.scale ≤ 10) :
    0.1 ≤ (applyEvent hypot e s).imgState.scale ∧
      (applyEvent hypot e s).imgState.scale ≤ 10 := by
  cases e with
  | wheel d => exact handleWheel_scale_bounds d s h1 h2
  | touchMove ts => exact handleTouchMove_scale_bounds hypot ts s h1 h2
  | _ => exact hz.elim

/-- C1: Scale clamp invariant: for every sequence of zoom operations
(wheel events and pinch moves) applied from any state whose scale lies in
[0.1, 10], the resulting scale satisfies 0.1 ≤ scale ≤ 10. -/
theorem scale_clamp_invariant (hypot : ℚ → ℚ → ℚ) (es : List Event)
    (s : ComponentState)
    (hz : ∀ e ∈ es, isZoomEvent e)
    (h1 : 0.1 ≤ s.imgState.scale) (h2 : s.imgState.scale ≤ 10) :
    0.1 ≤ (applyEvents hypot es s).imgState.scale ∧
      (applyEvents hypot es s).imgState.scale ≤ 10 := by
  induction es generalizing s with
  | nil => exact ⟨h1, h2⟩
  | cons e es ih =>
    simp only [applyEvents, List.foldl_cons]
    obtain ⟨g1, g2⟩ := zoom_step_scale_bounds hypot e s (hz e (List.mem_cons_self e es)) h1 h2
    exact ih (applyEvent hypot e s) (fun e' he' => hz e' (List.mem_cons_of_mem e he')) g1 g2

/-- C1 witness: three wheel ticks and a pinch frame from scale 1 keep the
scale inside [0.1, 10]. -/
theorem scale_clamp_invariant_check :
    ((∀ e ∈ [Event.wheel (-3 : ℚ), Event.wheel (-3 : ℚ), Event.wheel 2,
        Event.touchMove [((0 : ℚ), (0 : ℚ)), ((30 : ℚ), (40 : ℚ))]], isZoomEvent e) ∧
      (0.1 : ℚ) ≤ (initState (some ("img"))).imgState.scale ∧
      (initState (some ("img"))).imgState.scale ≤ 10) ∧
    (0.1 ≤ (applyEvents sampleDist
        [Event.wheel (-3 : ℚ), Event.wheel (-3 : ℚ), Event.wheel 2,
          Event.touchMove [((0 : ℚ), (0 : ℚ)), ((30 : ℚ), (40 : ℚ))]]
        (initState (some ("img")))).imgState.scale ∧
      (applyEvents sampleDist
        [Event.wheel (-3 : ℚ), Event.wheel (-3 : ℚ), Event.wheel 2,
          Event.touchMove [((0 : ℚ), (0 : ℚ)), ((30 : ℚ), (40 : ℚ))]]
        (initState (some ("img")))).imgState.scale ≤ 10) := by
  refine ⟨⟨?_, by norm_num [initState], by norm_num [initState]⟩, ?_⟩
  · intro e he
    fin_cases he <;> trivial
  · exact scale_clamp_invariant sampleDist _ (initState (some ("img")))
      (by intro e he; fin_cases he <;> trivial)
      (by norm_num [initState]) (by norm_num [initState])

/-- The events delivered by the interactive surface's wired DOM handlers
(lines 295-303). -/
def isGestureEvent : Event → Prop
  | Event.mouseDown _ => True
  | Event.mouseMove _ => True
  | Event.mouseUp => True
  | Event.wheel _ => True
  | Event.touchStart _ => True
  | Event.touchMove _ => True
  | Event.touchEnd => True
  | _ => False

theorem no_image_step (hypot : ℚ → ℚ → ℚ) (e : Event) (s : ComponentState)
    (hg : isGestureEvent e) (hn : s.imageSrc = none) (hd : s.isDragging = false) :
    (applyEvent hypot e s).imgState = s.imgState ∧
    (applyEvent hypot e s).isDragging = false ∧
    (applyEvent hypot e s).imageSrc = none := by
  cases e with
  | mouseDown pos => simp [applyEvent, handleMouseDown, hn, hd]
  | mouseMove pos => simp [applyEvent, handleMouseMove, hn, hd]
  | mouseUp => simp [applyEvent, handleMouseUp, hn]
  | wheel d => simp [applyEvent, handleWheel, hn, hd]
  | touchStart ts => simp [applyEvent, handleTouchStart, hn, hd]
  | touchMove ts => simp [applyEvent, handleTouchMove, hn, hd]
  | touchEnd => simp [applyEvent, handleTouchEnd, hn]
  | _ => exact hg.elim

/-- C10: No-image no-op invariant: while no image is loaded, every
sequence of events delivered by the interactive surface's handlers leaves
the image transform at its initial identity value (the handlers that could
change it return immediately, and no drag can start). -/
theorem no_image_no_op (hypot : ℚ → ℚ → ℚ) (es : List Event) (s : ComponentState)
    (hg : ∀ e ∈ es, isGestureEvent e) (hn : s.imageSrc = none)
    (hid : s.imgState = { rotation := 0, scale := 1, x := 0, y := 0 })
    (hd : s.isDragging = false) :
    (applyEvents hypot es s).imgState = { rotation := 0, scale := 1, x := 0, y := 0 } := by
  induction es generalizing s with
  | nil => exact hid
  | cons e es ih =>
    simp only [applyEvents, List.foldl_cons]
    obtain ⟨g1, g2, g3⟩ := no_image_step hypot e s (hg e (List.mem_cons_self e es)) hn hd
    exact ih (applyEvent hypot e s) (fun e' he' => hg e' (List.mem_cons_of_mem e he'))
      g3 (g1.trans hid) g2

/-- C10 witness: with no image loaded, a concrete burst of mouse, wheel
and touch events leaves the transform at identity. -/
theorem no_image_no_op_check :
    ((∀ e ∈ [Event.mouseDown ((5 : ℚ), (6 : ℚ)), Event.mouseMove ((7 : ℚ), (8 : ℚ)),
        Event.wheel (1 : ℚ), Event.touchStart [((1 : ℚ), (2 : ℚ))],
        Event.touchMove [((3 : ℚ), (4 : ℚ))], Event.touchEnd, Event.mouseUp],
        isGestureEvent e) ∧
      (initState none).imageSrc = none ∧
      (initState none).imgState = { rotation := 0, scale := 1, x := 0, y := 0 } ∧
      (initState none).isDragging = false) ∧
    (applyEvents sampleDist
      [Event.mouseDown ((5 : ℚ), (6 : ℚ)), Event.mouseMove ((7 : ℚ), (8 : ℚ)),
        Event.wheel (1 : ℚ), Event.touchStart [((1 : ℚ), (2 : ℚ))],
        Event.touchMove [((3 : ℚ), (4 : ℚ))], Event.touchEnd, Event.mouseUp]
      (initState none)).imgState = { rotation := 0, scale := 1, x := 0, y := 0 } := by
  refine ⟨⟨?_, rfl, rfl, rfl⟩, ?_⟩
  · intro e he
    fin_cases he <;> trivial
  · exact no_image_no_op sampleDist _ (initState none)
      (by intro e he; fin_cases he <;> trivial) rfl rfl rfl

/-- C4: At-most-one export concurrency: while the saving in-flight flag is
true the export trigger is a no-op (the Save button is disabled, so
`handleSaveImage` is not dispatched); consequently, of two export triggers
in rapid succession from an enabled state, the first starts the single
capture and the second is a no-op. -/
theorem save_at_most_one (s t : ComponentState)
    (hs : s.isSaving = true)
    (ht : t.isSaving = false) (htc : t.containerRef = true) (hti : t.imageSrc ≠ none) :
    clickSave s = (s, false) ∧
    (clickSave t).2 = true ∧
    clickSave (clickSave t).1 = ((clickSave t).1, false) := by
  obtain ⟨src, hsrc⟩ := Option.ne_none_iff_exists'.mp hti
  refine ⟨?_, ?_, ?_⟩
  · unfold clickSave saveButtonDisabled
    simp [hs]
  · unfold clickSave saveButtonDisabled saveStart
    simp [ht, htc, hsrc]
  · have hfst : (clickSave t).1 = { t with isSaving := true } := by
      unfold clickSave saveButtonDisabled saveStart
      simp [ht, htc, hsrc]
    rw [hfst]
    unfold clickSave saveButtonDisabled
    simp

/-- C4 witness: from a fresh enabled state, the first Save click starts a
capture and an immediate second click is a no-op; a click while saving is
a no-op. -/
theorem save_at_most_one_check :
    (({ initState (some ("img")) with isSaving := true } : ComponentState).isSaving = true ∧
      (initState (some ("img"))).isSaving = false ∧
      (initState (some ("img"))).containerRef = true ∧
      (initState (some ("img"))).imageSrc ≠ none) ∧
    (clickSave { initState (some ("img")) with isSaving := true }
        = ({ initState (some ("img")) with isSaving := true }, false) ∧
      (clickSave (initState (some ("img")))).2 = true ∧
      clickSave (clickSave (initState (some ("img")))).1
        = ((clickSave (initState (some ("img")))).1, false)) := by
  refine ⟨⟨rfl, rfl, rfl, by simp [initState]⟩, ?_⟩
  exact save_at_most_one { initState (some ("img")) with isSaving := true }
    (initState (some ("img"))) rfl rfl rfl (by simp [initState])

/-- C5: Export failure atomicity: from any enabled state, an export run
whose capture step fails leaves the image transform and the overlay
configuration unchanged, produces no file artifact, and returns with the
saving flag false. -/
theorem export_failure_atomic (s : ComponentState) (now : ℕ)
    (hc : s.containerRef = true) (hi : s.imageSrc ≠ none) (hs : s.isSaving = false) :
    (runSave s CaptureResult.failure now).1.imgState = s.imgState ∧
    (runSave s CaptureResult.failure now).1.overlay = s.overlay ∧
    (runSave s CaptureResult.failure now).2 = none ∧
    (runSave s CaptureResult.failure now).1.isSaving = false := by
  obtain ⟨src, hsrc⟩ := Option.ne_none_iff_exists'.mp hi
  unfold runSave clickSave saveButtonDisabled saveStart saveFinish
  simp [hs, hc, hsrc]

/-- C5 witness: a failed export from the initial loaded state changes
neither the transform nor the overlay, yields no artifact, and ends with
the saving flag false. -/
theorem export_failure_atomic_check :
    ((initState (some ("img"))).containerRef = true ∧
      (initState (some ("img"))).imageSrc ≠ none ∧
      (initState (some ("img"))).isSaving = false) ∧
    ((runSave (initState (some ("img"))) CaptureResult.failure 1700000000).1.imgState
        = (initState (some ("img"))).imgState ∧
      (runSave (initState (some ("img"))) CaptureResult.failure 1700000000).1.overlay
        = (initState (some ("img"))).overlay ∧
      (runSave (initState (some ("img"))) CaptureResult.failure 1700000000).2 = none ∧
      (runSave (initState (some ("img"))) CaptureResult.failure 1700000000).1.isSaving
        = false) := by
  refine ⟨⟨rfl, by simp [initState], rfl⟩, ?_⟩
  exact export_failure_atomic (initState (some ("img"))) 1700000000
    rfl (by simp [initState]) rfl

theorem adjustRotation_rotation (d : ℚ) (s : ComponentState) :
    (adjustRotation d s).imgState.rotation = round2 (s.imgState.rotation + d) := rfl

/-- Rounding to 2 decimals fixes every multiple of 1/10. -/
theorem round2_tenth (k : ℤ) : round2 ((k : ℚ) / 10) = (k : ℚ) / 10 := by
  unfold round2
  have h : (100 : ℚ) * ((k : ℚ) / 10) = ((10 * k : ℤ) : ℚ) := by
    push_cast
    ring
  rw [h, round_intCast]
  push_cast
  ring

theorem iterate_adjustRotation (s : ComponentState) (h0 : s.imgState.rotation = 0)
    (n : ℕ) :
    ((adjustRotation 0.1)^[n] s).imgState.rotation = (n : ℚ) / 10 := by
  induction n with
  | zero => simpa using h0
  | succ n ih =>
    rw [Function.iterate_succ_apply', adjustRotation_rotation, ih]
    have h : (n : ℚ) / 10 + 0.1 = ((n + 1 : ℤ) : ℚ) / 10 := by
      push_cast
      norm_num
      ring
    rw [h, round2_tenth]
    push_cast
    ring

/-- C6: Rotation rounding: `adjustRotation` stores
`round2(current + delta)`; applying `adjustRotation 0.1` ten times from
rotation 0 yields exactly 1; and every value the bounded 0.1-step slider
can deliver is already at 2-decimal precision, so the slider's stored
rotation equals its own 2-decimal rounding. -/
theorem rotation_rounding (s : ComponentState) (v : ℚ)
    (h0 : s.imgState.rotation = 0) (hv : isSliderValue v) :
    (∀ d : ℚ, (adjustRotation d s).imgState.rotation
        = round2 (s.imgState.rotation + d)) ∧
    ((adjustRotation 0.1)^[10] s).imgState.rotation = 1 ∧
    (sliderRotation v s).imgState.rotation = v ∧
    round2 ((sliderRotation v s).imgState.rotation) = v := by
  obtain ⟨⟨k, hk⟩, _, _⟩ := hv
  refine ⟨fun d => adjustRotation_rotation d s, ?_, rfl, ?_⟩
  · rw [iterate_adjustRotation s h0 10]
    norm_num
  · show round2 v = v
    rw [hk, round2_tenth]

/-- C6 witness: ten +0.1 steps from the initial state give rotation exactly
1, and the slider value 4.2 (a 0.1-step multiple in range) is stored and
already 2-decimal. -/
theorem rotation_rounding_check :
    ((initState (some ("img"))).imgState.rotation = 0 ∧ isSliderValue (42 / 10)) ∧
    (((adjustRotation 0.1)^[10] (initState (some ("img")))).imgState.rotation = 1 ∧
      (sliderRotation (42 / 10) (initState (some ("img")))).imgState.rotation = 42 / 10 ∧
      round2 ((sliderRotation (42 / 10) (initState (some ("img")))).imgState.rotation)
        = 42 / 10) := by
  have hv : isSliderValue (42 / 10) := ⟨⟨42, by norm_num⟩, by norm_num, by norm_num⟩
  have h := rotation_rounding (initState (some ("img"))) (42 / 10) rfl hv
  exact ⟨⟨rfl, hv⟩, h.2.1, h.2.2.1, h.2.2.2⟩

/-- The overlay kind is one of the two variants the component's controls
can select. -/
def overlayKindOK (s : ComponentState) : Prop :=
  s.overlay.type = OverlayType.indices ∨ s.overlay.type = OverlayType.grid

theorem handleTouchStart_overlay (hypot : ℚ → ℚ → ℚ) (ts : List (ℚ × ℚ))
    (s : ComponentState) :
    (handleTouchStart hypot ts s).overlay = s.overlay := by
  unfold handleTouchStart
  split
  · rfl
  · rcases ts with _ | ⟨t, _ | ⟨t2, _ | ⟨t3, rest⟩⟩⟩ <;> rfl

theorem handleTouchMove_overlay (hypot : ℚ → ℚ → ℚ) (ts : List (ℚ × ℚ))
    (s : ComponentState) :
    (handleTouchMove hypot ts s).overlay = s.overlay := by
  unfold handleTouchMove
  split
  · rfl
  · rcases ts with _ | ⟨t, _ | ⟨t2, _ | ⟨t3, rest⟩⟩⟩
    · rfl
    · split_ifs <;> rfl
    · cases hld : s.lastTouchDistance <;> simp [hld]
    · rfl

theorem runSave_overlay (s : ComponentState) (cap : CaptureResult) (now : ℕ) :
    (runSave s cap now).1.overlay = s.overlay := by
  unfold runSave clickSave saveButtonDisabled saveStart saveFinish
  cases cap <;> split_ifs <;> rfl

theorem applyEvent_overlayKind (hypot : ℚ → ℚ → ℚ) (e : Event) (s : ComponentState)
    (h : overlayKindOK s) : overlayKindOK (applyEvent hypot e s) := by
  cases e with
  | mouseDown pos =>
    unfold applyEvent handleMouseDown
    split_ifs <;> exact h
  | mouseMove pos =>
    unfold applyEvent handleMouseMove
    split_ifs <;> exact h
  | mouseUp => exact h
  | wheel d =>
    unfold applyEvent handleWheel
    split_ifs <;> exact h
  | touchStart ts =>
    unfold overlayKindOK at h ⊢
    rw [show (applyEvent hypot (Event.touchStart ts) s).overlay
        = s.overlay from handleTouchStart_overlay hypot ts s]
    exact h
  | touchMove ts =>
    unfold overlayKindOK at h ⊢
    rw [show (applyEvent hypot (Event.touchMove ts) s).overlay
        = s.overlay from handleTouchMove_overlay hypot ts s]
    exact h
  | touchEnd => exact h
  | resetClick => exact h
  | adjustRotClick d => exact h
  | sliderChange v => exact h
  | selectIndicesClick => exact Or.inl rfl
  | selectGridClick => exact Or.inr rfl
  | selectColorClick c => exact h
  | upload src => exact h
  | saveRun cap now =>
    unfold overlayKindOK at h ⊢
    rw [show (applyEvent hypot (Event.saveRun cap now) s).overlay
        = s.overlay from runSave_overlay s cap now]
    exact h

/-- C7: Overlay kind exhaustiveness: in every reachable component state
the overlay kind is one of the two supported variants (the controls at the
boundary only ever set `'indices'` or `'grid'`, so any other value of the
declared type, such as `'crosshair'`, never reaches the renderer), and for
both supported kinds `renderOverlay` produces a non-empty guide. -/
theorem overlay_kind_exhaustive (hypot : ℚ → ℚ → ℚ) (s : ComponentState)
    (h : Reachable hypot s) :
    (s.overlay.type = OverlayType.indices ∨ s.overlay.type = OverlayType.grid) ∧
    ∃ g, renderOverlay s.overlay = some g ∧ g ≠ [] := by
  have hk : overlayKindOK s := by
    induction h with
    | init src => exact Or.inl rfl
    | step e hs ih => exact applyEvent_overlayKind _ _ _ ih
  refine ⟨hk, ?_⟩
  rcases hk with h' | h'
  · have hr : renderOverlay s.overlay
        = some ([OverlayElement.line s.overlay.color 0,
            OverlayElement.line s.overlay.color 90]
          ++ (List.range 6).map
            (fun i => OverlayElement.line s.overlay.color (30 * (i : ℚ)))
          ++ [OverlayElement.circle s.overlay.color 4,
            OverlayElement.circle s.overlay.color (2 / 3)]) := by
      unfold renderOverlay
      rw [h']
    exact ⟨_, hr, by simp⟩
  · have hr : renderOverlay s.overlay
        = some [OverlayElement.gridPattern s.overlay.color 50] := by
      unfold renderOverlay
      rw [h']
    exact ⟨_, hr, by simp⟩

/-- The state used by the C7 witness: a wheel zoom, then the Grid tool. -/
def gridDemoState : ComponentState :=
  applyEvent sampleDist Event.selectGridClick
    (applyEvent sampleDist (Event.wheel 1) (initState (some ("img"))))

/-- C7 witness: a state reached by selecting the Grid tool after a wheel
event satisfies the kind invariant and renders a non-empty guide. -/
theorem overlay_kind_exhaustive_check :
    Reachable sampleDist gridDemoState ∧
    ((gridDemoState.overlay.type = OverlayType.indices ∨
        gridDemoState.overlay.type = OverlayType.grid) ∧
      ∃ g, renderOverlay gridDemoState.overlay = some g ∧ g ≠ []) := by
  have hr : Reachable sampleDist gridDemoState :=
    Reachable.step Event.selectGridClick
      (Reachable.step (Event.wheel 1) (Reachable.init (some ("img"))))
  exact ⟨hr, overlay_kind_exhaustive sampleDist gridDemoState hr⟩

end WatchQC
